import Mathlib

/-!
# Verification of the hpack_codec HPACK implementation

Shallow embedding of the core of the `hpack_codec` crate (RFC 7541 HPACK
codec) and proofs about it.  Octet sequences are modelled as `List Nat`
with every element below 256; Rust `u8`/`u16` arithmetic is modelled on
`Nat` with explicit truncation (`% 256`, `% 65536`) at the points where
the Rust code performs a narrowing cast or where a shift can discard
high bits.  Shift amounts are reduced modulo the bit width where the
Rust (release-profile) semantics masks them.  Fallible parsing returns
`Option` (`none` is the error, the crate's error kinds `InvalidInput`
and `Io` being collapsed since no claim distinguishes them); stateful
table operations return `OpResult`, whose `crash` constructor models a
Rust `expect`/`panic!` aborting the process.
-/

set_option linter.unnecessarySeqFocus false
set_option linter.unusedVariables false
set_option maxRecDepth 100000

namespace HpackCodec

/-- Result of a stateful operation on the dynamic table or codec state:
`crash` models a Rust panic (`expect("Never fails")`), `err state` an
`Err(..)` return value together with the state the `&mut self` receiver
was left in, and `ok state` a successful return. -/
inductive OpResult (α : Type) : Type where
  | crash : OpResult α
  | err (state : α) : OpResult α
  | ok (state : α) : OpResult α
deriving DecidableEq

/-! ## Integer codec (src/literal.rs)

`encode_u16` / `decode_u16` implement the HPACK integer representation
with an `N`-bit prefix and 7-bit continuation groups, over `u16` values.
-/

/-- Continuation-octet loop of `encode_u16` (src/literal.rs, lines 25-30):
`while value >= 128 { emit (value % 128 + 128); value /= 128 }; emit value`. -/
def encodeCont (v : Nat) : List Nat :=
  if h : 128 ≤ v then (v % 128 + 128) :: encodeCont (v / 128) else [v]
termination_by v
decreasing_by exact Nat.div_lt_self (by omega) (by omega)

/-- `encode_u16(prepended_value, prefix_bits, value)` (src/literal.rs, lines 11-33).
The first branch computes the octet in `u16` and casts to `u8` (`% 256`);
the second branch shifts `prepended_value` as a `u8`, where a shift by 8
is masked to 0 in the release profile (hence `<<< (n % 8)`), and casts
`max_prefix_value` to `u8` (`% 256`). -/
def encode_u16 (p n v : Nat) : List Nat :=
  if v < 2 ^ n - 1 then
    [((p <<< n) ||| v) % 256]
  else
    (((p <<< (n % 8)) % 256) ||| ((2 ^ n - 1) % 256)) :: encodeCont (v - (2 ^ n - 1))

/-- Continuation-octet loop of `decode_u16` (src/literal.rs, lines 42-55).
Each step reads one octet and computes
`addition = (octet as u16 & 127) << offset` in `u16`: the shift amount is
masked modulo 16 (release profile) and bits shifted above bit 15 are
silently discarded (`% 65536`); `checked_add` failure (sum above 65535)
is the `InvalidInput` error (`none`), as is reading past the end of the
input.  Returns the accumulated value and the unread remainder. -/
def decodeCont : List Nat → Nat → Nat → Option (Nat × List Nat)
  | [], _, _ => none
  | octet :: rest, value, offset =>
    if value + ((octet &&& 127) <<< (offset % 16)) % 65536 ≤ 65535 then
      if octet &&& 128 = 128 then
        decodeCont rest (value + ((octet &&& 127) <<< (offset % 16)) % 65536) (offset + 7)
      else
        some (value + ((octet &&& 127) <<< (offset % 16)) % 65536, rest)
    else
      none

/-- `decode_u16(input, prefix_bits)` (src/literal.rs, lines 35-58).
Reads the first octet, extracts the prepended value
(`(first as u16) >> prefix_bits` cast back to `u8`, hence `% 256`) and the
low prefix bits; when the prefix is saturated it runs the continuation
loop starting from the prefix value at offset 0.
Returns `(prepended_value, value, remaining input)`. -/
def decode_u16 (input : List Nat) (n : Nat) : Option (Nat × Nat × List Nat) :=
  match input with
  | [] => none
  | first :: rest =>
    if first &&& (2 ^ n - 1) = 2 ^ n - 1 then
      match decodeCont rest (first &&& (2 ^ n - 1)) 0 with
      | none => none
      | some (v2, rest2) => some ((first >>> n) % 256, v2, rest2)
    else
      some ((first >>> n) % 256, first &&& (2 ^ n - 1), rest)

example : encode_u16 6 5 10 = [0xCA] := by decide
example : encode_u16 6 5 1337 = [0xDF, 0x9A, 0x0A] := by simp [encode_u16, encodeCont]
example : decode_u16 [0xDF, 0x9A, 0x0A] 5 = some (6, 1337, []) := by decide
example : encode_u16 0 8 42 = [42] := by decide
example : decode_u16 [42] 8 = some (0, 42, []) := by decide
example : encode_u16 0 8 300 = [255, 45] := by simp [encode_u16, encodeCont]
example : decode_u16 [255, 45] 8 = some (0, 300, []) := by decide
example : decode_u16 [0x1F, 0xD1, 0xA2, 0x04] 5 = some (0, 4464, []) := by decide

/-! ### Bitwise facts on octet-sized values, settled by enumeration -/

theorem band127_low : ∀ x < 128, x &&& 127 = x := by decide

theorem band127_high : ∀ x < 128, (x + 128) &&& 127 = x := by decide

theorem band128_low : ∀ x < 128, x &&& 128 = 0 := by decide

theorem band128_high : ∀ x < 128, (x + 128) &&& 128 = 128 := by decide

/-- The continuation loop of `decode_u16` inverts the continuation loop of
`encode_u16`, for values in the `u16` range at the offsets (0, 7, 14)
actually reached there. -/
theorem decodeCont_encodeCont :
    ∀ d value offset, (offset = 0 ∨ offset = 7 ∨ offset = 14) →
      value + d * 2 ^ offset ≤ 65535 →
      decodeCont (encodeCont d) value offset = some (value + d * 2 ^ offset, []) := by
  intro d
  induction d using Nat.strong_induction_on with
  | _ d ih =>
    intro value offset hoff hbound
    rw [encodeCont]
    by_cases hd : 128 ≤ d
    · rw [dif_pos hd]
      have hoff16 : offset % 16 = offset := by omega
      have hand127 : (d % 128 + 128) &&& 127 = d % 128 := band127_high _ (by omega)
      have hand128 : (d % 128 + 128) &&& 128 = 128 := band128_high _ (by omega)
      have hsh : (d % 128) <<< offset = d % 128 * 2 ^ offset := Nat.shiftLeft_eq _ _
      have hlt : d % 128 * 2 ^ offset ≤ 65535 := by
        calc d % 128 * 2 ^ offset ≤ d * 2 ^ offset :=
              Nat.mul_le_mul_right _ (Nat.mod_le _ _)
          _ ≤ 65535 := by omega
      have hmod : d % 128 * 2 ^ offset % 65536 = d % 128 * 2 ^ offset :=
        Nat.mod_eq_of_lt (by omega)
      have hrec := ih (d / 128) (Nat.div_lt_self (by omega) (by omega))
        (value + d % 128 * 2 ^ offset) (offset + 7)
      have hoff7 : offset + 7 = 0 ∨ offset + 7 = 7 ∨ offset + 7 = 14 := by
        rcases hoff with h | h | h <;> subst h <;> simp_all <;> omega
      have hsplit : value + d % 128 * 2 ^ offset + d / 128 * 2 ^ (offset + 7)
          = value + d * 2 ^ offset := by
        rcases hoff with h | h | h <;> subst h <;> simp_all <;> omega
      rw [decodeCont, hoff16, hand127, hand128, hsh, hmod,
        if_pos (by omega), if_pos rfl, hrec hoff7 (by omega), hsplit]
    · rw [dif_neg hd]
      have hoff16 : offset % 16 = offset := by omega
      have hand127 : d &&& 127 = d := band127_low _ (by omega)
      have hand128 : d &&& 128 = 0 := band128_low _ (by omega)
      have hsh : d <<< offset = d * 2 ^ offset := Nat.shiftLeft_eq _ _
      have hmod : d * 2 ^ offset % 65536 = d * 2 ^ offset :=
        Nat.mod_eq_of_lt (by omega)
      rw [decodeCont, hoff16, hand127, hand128, hsh, hmod, if_pos (by omega),
        if_neg (by omega)]

/-- Round trip of the single-octet branch (`value < max_prefix_value`),
settled by enumerating the finitely many `(p, v)` pairs for each prefix
width. -/
theorem decode_encode_small :
    ∀ n, 1 ≤ n → n ≤ 8 → ∀ p < 2 ^ (8 - n), ∀ v < 2 ^ n - 1,
      decode_u16 (encode_u16 p n v) n = some (p, v, []) := by
  intro n h1 h2
  interval_cases n <;> decide

/-- In the saturated branch, the first octet emitted by `encode_u16`
decodes back to the prepended value and a saturated prefix.
This is an auxiliary enumeration lemma for the round-trip theorem. -/
theorem decode_first_octet_big :
    ∀ n, 1 ≤ n → n ≤ 8 → ∀ p < 2 ^ (8 - n),
      (((((p <<< (n % 8)) % 256) ||| ((2 ^ n - 1) % 256)) >>> n) % 256 = p ∧
       (((p <<< (n % 8)) % 256) ||| ((2 ^ n - 1) % 256)) &&& (2 ^ n - 1) = 2 ^ n - 1) := by
  intro n h1 h2
  interval_cases n <;> decide

/-- C3. For every prefix width `N` (1..8), prepended value `P < 2^(8-N)`
and value `V ≤ 65535`, decoding the bytes produced by `encode_u16`
with prefix width `N` succeeds and yields exactly `(P, V)` (consuming
the whole encoding). -/
theorem decode_encode_u16 (n p v : Nat) (h1 : 1 ≤ n) (h2 : n ≤ 8)
    (hp : p < 2 ^ (8 - n)) (hv : v ≤ 65535) :
    decode_u16 (encode_u16 p n v) n = some (p, v, []) := by
  by_cases hsmall : v < 2 ^ n - 1
  · exact decode_encode_small n h1 h2 p hp v hsmall
  · obtain ⟨hshift, hand⟩ := decode_first_octet_big n h1 h2 p hp
    have hb : (2 ^ n - 1) + (v - (2 ^ n - 1)) * 2 ^ 0 ≤ 65535 := by
      simp only [pow_zero, mul_one]; omega
    rw [encode_u16, if_neg hsmall]
    simp only [decode_u16, if_pos hand, hand,
      decodeCont_encodeCont (v - (2 ^ n - 1)) (2 ^ n - 1) 0 (Or.inl rfl) hb,
      hshift]
    have hval : (2 ^ n - 1) + (v - (2 ^ n - 1)) * 2 ^ 0 = v := by
      simp only [pow_zero, mul_one]; omega
    rw [hval]
    simp

/-- Witness for C3 at the RFC 7541 Appendix C.1.2 example
(1337 with a 5-bit prefix and prepended bits 0b110). -/
theorem decode_encode_u16_witness :
    1 ≤ 5 ∧ (5 : Nat) ≤ 8 ∧ 6 < 2 ^ (8 - 5) ∧ (1337 : Nat) ≤ 65535 ∧
    decode_u16 (encode_u16 6 5 1337) 5 = some (6, 1337, []) :=
  ⟨by decide, by decide, by decide, by decide,
   decode_encode_u16 5 6 1337 (by decide) (by decide) (by decide) (by decide)⟩

/-- C4. `decode_u16` does NOT reliably reject integers exceeding 65535:
with a 5-bit prefix, the octets `1F D1 A2 04` are the HPACK encoding of
`31 + (81 + 34*2^7 + 4*2^14) = 70000 > 65535`, yet decoding succeeds and
returns `70000 % 65536 = 4464` — the `4 <<< 14` addition wraps to 0 in
`u16` before `checked_add` can see an overflow. -/
theorem decode_u16_wraps_modulo_u16 :
    decode_u16 [0x1F, 0xD1, 0xA2, 0x04] 5 = some (0, 4464, []) ∧
    31 + (0xD1 &&& 127) + (0xA2 &&& 127) * 2 ^ 7 + (0x04 &&& 127) * 2 ^ 14 = 70000 ∧
    70000 % 65536 = 4464 ∧ 70000 > 65535 := by decide

/-! ## Header fields and the dynamic table (src/table.rs)

Entries are pairs of octet sequences.  The dynamic table keeps the most
recently inserted entry at the head of `entries`, maintains a running
`size` in bytes, and two limits, all `u16` in the source.
-/

/-- A header field: a `(name, value)` pair of octet sequences. -/
structure HeaderField where
  name : List Nat
  value : List Nat
deriving DecidableEq

/-- Modelled from the spec: `HeaderField::entry_size` is not among the
provided sources (src/field.rs is an older revision without it); the
spec (§3) and RFC 7541 §4.1 define the entry size as
`len(name) + len(value) + 32`, which also matches `Entry::size` in
src/lib.rs. -/
def HeaderField.entrySize (f : HeaderField) : Nat :=
  f.name.length + f.value.length + 32

/-- The dynamic table state (src/table.rs, lines 79-85). `entries` holds
the most recent entry first (`push_front` / `pop_back` in the source). -/
structure DynamicTable where
  entries : List HeaderField
  size : Nat
  sizeSoftLimit : Nat
  sizeHardLimit : Nat
deriving DecidableEq

/-- `DynamicTable::new(max_size)` (src/table.rs, lines 87-94). -/
def DynamicTable.new (maxSize : Nat) : DynamicTable :=
  { entries := [], size := 0, sizeSoftLimit := maxSize, sizeHardLimit := maxSize }

/-- `DynamicTable::evict_exceeded_entries` (src/table.rs, lines 164-169):
`while size_soft_limit - new_entry_size < size { pop_back; size -= ... }`,
with `limit` standing for the (non-underflowing, see the call sites)
`u16` difference `size_soft_limit - new_entry_size`.  The
`expect("Never fails")` on an empty pop is modelled by `none`. -/
def evictLoop (limit : Nat) (entries : List HeaderField) (size : Nat) :
    Option (List HeaderField × Nat) :=
  if limit < size then
    match h : entries.getLast? with
    | none => none
    | some evicted => evictLoop limit entries.dropLast (size - evicted.entrySize)
  else
    some (entries, size)
termination_by entries.length
decreasing_by
  simp only [List.length_dropLast]
  cases entries with
  | nil => simp at h
  | cons a l => simp

/-- `DynamicTable::push` (src/table.rs, lines 150-162).  If the candidate
entry is larger than the soft limit the source clears `entries` and
returns the candidate — note that it does NOT reset `size`.  Otherwise it
evicts old entries, adds the entry size to `size` and pushes the entry at
the front, returning `none` for "no evicted entry". -/
def DynamicTable.push (t : DynamicTable) (name value : List Nat) :
    Option (Option HeaderField × DynamicTable) :=
  if t.sizeSoftLimit < (HeaderField.mk name value).entrySize then
    some (some (HeaderField.mk name value), { t with entries := [] })
  else
    match evictLoop (t.sizeSoftLimit - (HeaderField.mk name value).entrySize)
        t.entries t.size with
    | none => none
    | some (entries2, size2) =>
      some (none, { t with
        entries := HeaderField.mk name value :: entries2,
        size := size2 + (HeaderField.mk name value).entrySize })

/-- `DynamicTable::set_size_soft_limit` (src/table.rs, lines 137-148):
fails when the requested limit exceeds the hard limit, otherwise sets the
soft limit and evicts until the size fits (eviction budget
`size_soft_limit - 0`). The `err` carries the unchanged table. -/
def DynamicTable.setSizeSoftLimit (t : DynamicTable) (maxSize : Nat) :
    OpResult DynamicTable :=
  if maxSize ≤ t.sizeHardLimit then
    match evictLoop (maxSize - 0) t.entries t.size with
    | none => .crash
    | some (entries2, size2) =>
      .ok { t with sizeSoftLimit := maxSize, entries := entries2, size := size2 }
  else
    .err t

/-- `DynamicTable::set_size_hard_limit` (src/table.rs, lines 125-130):
sets the hard limit unconditionally; when the new hard limit undercuts
the soft limit, the soft limit is lowered too (cascading eviction); the
inner `expect("Never fails")` is modelled by `none`. -/
def DynamicTable.setSizeHardLimit (t : DynamicTable) (maxSize : Nat) :
    Option DynamicTable :=
  if maxSize < t.sizeSoftLimit then
    match DynamicTable.setSizeSoftLimit { t with sizeHardLimit := maxSize } maxSize with
    | .crash => none
    | .err _ => none
    | .ok t2 => some t2
  else
    some { t with sizeHardLimit := maxSize }

/-- The sum of the entry sizes of the stored entries — the quantity the
`size` field is documented (RFC 7541 §4.1) to track. -/
def sumEntrySizes (l : List HeaderField) : Nat :=
  (l.map HeaderField.entrySize).sum

/-- One operation of the dynamic-table API quantified over in C1. -/
inductive TableOp where
  | push (name value : List Nat)
  | setSoft (m : Nat)
  | setHard (m : Nat)
deriving DecidableEq

/-- Apply one operation. An `Err` return from `set_size_soft_limit`
leaves the table unchanged (the assertion precedes any mutation);
a crash aborts the whole run. -/
def applyOp (t : DynamicTable) : TableOp → Option DynamicTable
  | .push name value =>
    match t.push name value with
    | none => none
    | some (_, t2) => some t2
  | .setSoft m =>
    match t.setSizeSoftLimit m with
    | .crash => none
    | .err t2 => some t2
    | .ok t2 => some t2
  | .setHard m => t.setSizeHardLimit m

/-- Apply a sequence of operations from left to right. -/
def applyOps (t : DynamicTable) : List TableOp → Option DynamicTable
  | [] => some t
  | op :: ops =>
    match applyOp t op with
    | none => none
    | some t2 => applyOps t2 ops

/-- C1. The documented invariant `sum(entry_size) == size` is violated by
the source: starting from a fresh table with limits 40, pushing a
37-byte entry and then a 41-byte (oversize) entry leaves
`entries = []` (sum of entry sizes 0) while `size` is still 37, because
the oversize branch of `DynamicTable::push` clears `entries` without
resetting `size`. -/
theorem dynamicTable_sum_size_invariant_violated :
    applyOps (DynamicTable.new 40)
      [TableOp.push [] [0, 0, 0, 0, 0],
       TableOp.push [0, 0, 0, 0, 0, 0, 0, 0, 0] []] =
      some { entries := [], size := 37, sizeSoftLimit := 40, sizeHardLimit := 40 } ∧
    sumEntrySizes [] = 0 ∧ (0 : Nat) ≠ 37 := by
  refine ⟨?_, by decide, by decide⟩
  simp [applyOps, applyOp, DynamicTable.push, DynamicTable.new, evictLoop,
    HeaderField.entrySize, sumEntrySizes]

/-- C2. An oversize `push` does not leave `size = 0`: on a table holding
one 37-byte entry (`size = 37`, limits 40), pushing a 41-byte entry
returns the candidate and empties `entries`, but `size` remains 37
instead of the 0 required by the claim (and by RFC 7541 §4.4's "empties
the table"). -/
theorem push_oversize_keeps_stale_size :
    (DynamicTable.new 40).push [] [0, 0, 0, 0, 0] =
      some (none, { entries := [HeaderField.mk [] [0, 0, 0, 0, 0]], size := 37,
                    sizeSoftLimit := 40, sizeHardLimit := 40 }) ∧
    ({ entries := [HeaderField.mk [] [0, 0, 0, 0, 0]], size := 37,
       sizeSoftLimit := 40, sizeHardLimit := 40 } : DynamicTable).push
        [0, 0, 0, 0, 0, 0, 0, 0, 0] [] =
      some (some (HeaderField.mk [0, 0, 0, 0, 0, 0, 0, 0, 0] []),
            { entries := [], size := 37, sizeSoftLimit := 40, sizeHardLimit := 40 }) ∧
    40 < (HeaderField.mk [0, 0, 0, 0, 0, 0, 0, 0, 0] []).entrySize ∧
    (37 : Nat) ≠ 0 := by
  refine ⟨?_, ?_, by decide, by decide⟩ <;>
    simp [DynamicTable.push, DynamicTable.new, evictLoop, HeaderField.entrySize]

/-! ## Static table and the table facade (src/table.rs, src/lib.rs) -/

/-- The static table contents in index order, embedded from the 61-entry
`STATIC_TABLE` array in src/lib.rs (RFC 7541 Appendix A), as octet lists. -/
def STATIC_TABLE : List HeaderField := [
  HeaderField.mk [58, 97, 117, 116, 104, 111, 114, 105, 116, 121] [],  -- index 1: :authority
  HeaderField.mk [58, 109, 101, 116, 104, 111, 100] [71, 69, 84],  -- index 2: :method GET
  HeaderField.mk [58, 109, 101, 116, 104, 111, 100] [80, 79, 83, 84],  -- index 3: :method POST
  HeaderField.mk [58, 112, 97, 116, 104] [47],  -- index 4: :path /
  HeaderField.mk [58, 112, 97, 116, 104] [47, 105, 110, 100, 101, 120, 46, 104, 116, 109, 108],  -- index 5: :path /index.html
  HeaderField.mk [58, 115, 99, 104, 101, 109, 101] [104, 116, 116, 112],  -- index 6: :scheme http
  HeaderField.mk [58, 115, 99, 104, 101, 109, 101] [104, 116, 116, 112, 115],  -- index 7: :scheme https
  HeaderField.mk [58, 115, 116, 97, 116, 117, 115] [50, 48, 48],  -- index 8: :status 200
  HeaderField.mk [58, 115, 116, 97, 116, 117, 115] [50, 48, 52],  -- index 9: :status 204
  HeaderField.mk [58, 115, 116, 97, 116, 117, 115] [50, 48, 54],  -- index 10: :status 206
  HeaderField.mk [58, 115, 116, 97, 116, 117, 115] [51, 48, 52],  -- index 11: :status 304
  HeaderField.mk [58, 115, 116, 97, 116, 117, 115] [52, 48, 48],  -- index 12: :status 400
  HeaderField.mk [58, 115, 116, 97, 116, 117, 115] [52, 48, 52],  -- index 13: :status 404
  HeaderField.mk [58, 115, 116, 97, 116, 117, 115] [53, 48, 48],  -- index 14: :status 500
  HeaderField.mk [97, 99, 99, 101, 112, 116, 45, 99, 104, 97, 114, 115, 101, 116] [],  -- index 15: accept-charset
  HeaderField.mk [97, 99, 99, 101, 112, 116, 45, 101, 110, 99, 111, 100, 105, 110, 103] [103, 122, 105, 112, 44, 32, 100, 101, 102, 108, 97, 116, 101],  -- index 16: accept-encoding gzip, deflate
  HeaderField.mk [97, 99, 99, 101, 112, 116, 45, 108, 97, 110, 103, 117, 97, 103, 101] [],  -- index 17: accept-language
  HeaderField.mk [97, 99, 99, 101, 112, 116, 45, 114, 97, 110, 103, 101, 115] [],  -- index 18: accept-ranges
  HeaderField.mk [97, 99, 99, 101, 112, 116] [],  -- index 19: accept
  HeaderField.mk [97, 99, 99, 101, 115, 115, 45, 99, 111, 110, 116, 114, 111, 108, 45, 97, 108, 108, 111, 119, 45, 111, 114, 105, 103, 105, 110] [],  -- index 20: access-control-allow-origin
  HeaderField.mk [97, 103, 101] [],  -- index 21: age
  HeaderField.mk [97, 108, 108, 111, 119] [],  -- index 22: allow
  HeaderField.mk [97, 117, 116, 104, 111, 114, 105, 122, 97, 116, 105, 111, 110] [],  -- index 23: authorization
  HeaderField.mk [99, 97, 99, 104, 101, 45, 99, 111, 110, 116, 114, 111, 108] [],  -- index 24: cache-control
  HeaderField.mk [99, 111, 110, 116, 101, 110, 116, 45, 100, 105, 115, 112, 111, 115, 105, 116, 105, 111, 110] [],  -- index 25: content-disposition
  HeaderField.mk [99, 111, 110, 116, 101, 110, 116, 45, 101, 110, 99, 111, 100, 105, 110, 103] [],  -- index 26: content-encoding
  HeaderField.mk [99, 111, 110, 116, 101, 110, 116, 45, 108, 97, 110, 103, 117, 97, 103, 101] [],  -- index 27: content-language
  HeaderField.mk [99, 111, 110, 116, 101, 110, 116, 45, 108, 101, 110, 103, 116, 104] [],  -- index 28: content-length
  HeaderField.mk [99, 111, 110, 116, 101, 110, 116, 45, 108, 111, 99, 97, 116, 105, 111, 110] [],  -- index 29: content-location
  HeaderField.mk [99, 111, 110, 116, 101, 110, 116, 45, 114, 97, 110, 103, 101] [],  -- index 30: content-range
  HeaderField.mk [99, 111, 110, 116, 101, 110, 116, 45, 116, 121, 112, 101] [],  -- index 31: content-type
  HeaderField.mk [99, 111, 111, 107, 105, 101] [],  -- index 32: cookie
  HeaderField.mk [100, 97, 116, 101] [],  -- index 33: date
  HeaderField.mk [101, 116, 97, 103] [],  -- index 34: etag
  HeaderField.mk [101, 120, 112, 101, 99, 116] [],  -- index 35: expect
  HeaderField.mk [101, 120, 112, 105, 114, 101, 115] [],  -- index 36: expires
  HeaderField.mk [102, 114, 111, 109] [],  -- index 37: from
  HeaderField.mk [104, 111, 115, 116] [],  -- index 38: host
  HeaderField.mk [105, 102, 45, 109, 97, 116, 99, 104] [],  -- index 39: if-match
  HeaderField.mk [105, 102, 45, 109, 111, 100, 105, 102, 105, 101, 100, 45, 115, 105, 110, 99, 101] [],  -- index 40: if-modified-since
  HeaderField.mk [105, 102, 45, 110, 111, 110, 101, 45, 109, 97, 116, 99, 104] [],  -- index 41: if-none-match
  HeaderField.mk [105, 102, 45, 114, 97, 110, 103, 101] [],  -- index 42: if-range
  HeaderField.mk [105, 102, 45, 117, 110, 109, 111, 100, 105, 102, 105, 101, 100, 45, 115, 105, 110, 99, 101] [],  -- index 43: if-unmodified-since
  HeaderField.mk [108, 97, 115, 116, 45, 109, 111, 100, 105, 102, 105, 101, 100] [],  -- index 44: last-modified
  HeaderField.mk [108, 105, 110, 107] [],  -- index 45: link
  HeaderField.mk [108, 111, 99, 97, 116, 105, 111, 110] [],  -- index 46: location
  HeaderField.mk [109, 97, 120, 45, 102, 111, 114, 119, 97, 114, 100, 115] [],  -- index 47: max-forwards
  HeaderField.mk [112, 114, 111, 120, 121, 45, 97, 117, 116, 104, 101, 110, 116, 105, 99, 97, 116, 101] [],  -- index 48: proxy-authenticate
  HeaderField.mk [112, 114, 111, 120, 121, 45, 97, 117, 116, 104, 111, 114, 105, 122, 97, 116, 105, 111, 110] [],  -- index 49: proxy-authorization
  HeaderField.mk [114, 97, 110, 103, 101] [],  -- index 50: range
  HeaderField.mk [114, 101, 102, 101, 114, 101, 114] [],  -- index 51: referer
  HeaderField.mk [114, 101, 102, 114, 101, 115, 104] [],  -- index 52: refresh
  HeaderField.mk [114, 101, 116, 114, 121, 45, 97, 102, 116, 101, 114] [],  -- index 53: retry-after
  HeaderField.mk [115, 101, 114, 118, 101, 114] [],  -- index 54: server
  HeaderField.mk [115, 101, 116, 45, 99, 111, 111, 107, 105, 101] [],  -- index 55: set-cookie
  HeaderField.mk [115, 116, 114, 105, 99, 116, 45, 116, 114, 97, 110, 115, 112, 111, 114, 116, 45, 115, 101, 99, 117, 114, 105, 116, 121] [],  -- index 56: strict-transport-security
  HeaderField.mk [116, 114, 97, 110, 115, 102, 101, 114, 45, 101, 110, 99, 111, 100, 105, 110, 103] [],  -- index 57: transfer-encoding
  HeaderField.mk [117, 115, 101, 114, 45, 97, 103, 101, 110, 116] [],  -- index 58: user-agent
  HeaderField.mk [118, 97, 114, 121] [],  -- index 59: vary
  HeaderField.mk [118, 105, 97] [],  -- index 60: via
  HeaderField.mk [119, 119, 119, 45, 97, 117, 116, 104, 101, 110, 116, 105, 99, 97, 116, 101] []  -- index 61: www-authenticate
]

/-- `StaticEntry::from_index` (src/table.rs, lines 474-539) composed with the
`From<StaticEntry> for HeaderField` mapping (src/table.rs, lines 297-376):
indices 1..=61 resolve to the corresponding static header field, anything
else to `none`. Each arm lists the octets of the field chosen by the
source for that index. -/
def staticEntryFromIndex (index : Nat) : Option HeaderField :=
  match index with
  | 1 => some (HeaderField.mk [58, 97, 117, 116, 104, 111, 114, 105, 116, 121] [])  -- :authority
  | 2 => some (HeaderField.mk [58, 109, 101, 116, 104, 111, 100] [71, 69, 84])  -- :method GET
  | 3 => some (HeaderField.mk [58, 109, 101, 116, 104, 111, 100] [80, 79, 83, 84])  -- :method POST
  | 4 => some (HeaderField.mk [58, 112, 97, 116, 104] [47])  -- :path /
  | 5 => some (HeaderField.mk [58, 112, 97, 116, 104] [47, 105, 110, 100, 101, 120, 46, 104, 116, 109, 108])  -- :path /index.html
  | 6 => some (HeaderField.mk [58, 115, 99, 104, 101, 109, 101] [104, 116, 116, 112])  -- :scheme http
  | 7 => some (HeaderField.mk [58, 115, 99, 104, 101, 109, 101] [104, 116, 116, 112, 115])  -- :scheme https
  | 8 => some (HeaderField.mk [58, 115, 116, 97, 116, 117, 115] [50, 48, 48])  -- :status 200
  | 9 => some (HeaderField.mk [58, 115, 116, 97, 116, 117, 115] [50, 48, 52])  -- :status 204
  | 10 => some (HeaderField.mk [58, 115, 116, 97, 116, 117, 115] [50, 48, 54])  -- :status 206
  | 11 => some (HeaderField.mk [58, 115, 116, 97, 116, 117, 115] [51, 48, 52])  -- :status 304
  | 12 => some (HeaderField.mk [58, 115, 116, 97, 116, 117, 115] [52, 48, 48])  -- :status 400
  | 13 => some (HeaderField.mk [58, 115, 116, 97, 116, 117, 115] [52, 48, 52])  -- :status 404
  | 14 => some (HeaderField.mk [58, 115, 116, 97, 116, 117, 115] [53, 48, 48])  -- :status 500
  | 15 => some (HeaderField.mk [97, 99, 99, 101, 112, 116, 45, 99, 104, 97, 114, 115, 101, 116] [])  -- accept-charset
  | 16 => some (HeaderField.mk [97, 99, 99, 101, 112, 116, 45, 101, 110, 99, 111, 100, 105, 110, 103] [103, 122, 105, 112, 44, 32, 100, 101, 102, 108, 97, 116, 101])  -- accept-encoding gzip, deflate
  | 17 => some (HeaderField.mk [97, 99, 99, 101, 112, 116, 45, 108, 97, 110, 103, 117, 97, 103, 101] [])  -- accept-language
  | 18 => some (HeaderField.mk [97, 99, 99, 101, 112, 116, 45, 114, 97, 110, 103, 101, 115] [])  -- accept-ranges
  | 19 => some (HeaderField.mk [97, 99, 99, 101, 112, 116] [])  -- accept
  | 20 => some (HeaderField.mk [97, 99, 99, 101, 115, 115, 45, 99, 111, 110, 116, 114, 111, 108, 45, 97, 108, 108, 111, 119, 45, 111, 114, 105, 103, 105, 110] [])  -- access-control-allow-origin
  | 21 => some (HeaderField.mk [97, 103, 101] [])  -- age
  | 22 => some (HeaderField.mk [97, 108, 108, 111, 119] [])  -- allow
  | 23 => some (HeaderField.mk [97, 117, 116, 104, 111, 114, 105, 122, 97, 116, 105, 111, 110] [])  -- authorization
  | 24 => some (HeaderField.mk [99, 97, 99, 104, 101, 45, 99, 111, 110, 116, 114, 111, 108] [])  -- cache-control
  | 25 => some (HeaderField.mk [99, 111, 110, 116, 101, 110, 116, 45, 100, 105, 115, 112, 111, 115, 105, 116, 105, 111, 110] [])  -- content-disposition
  | 26 => some (HeaderField.mk [99, 111, 110, 116, 101, 110, 116, 45, 101, 110, 99, 111, 100, 105, 110, 103] [])  -- content-encoding
  | 27 => some (HeaderField.mk [99, 111, 110, 116, 101, 110, 116, 45, 108, 97, 110, 103, 117, 97, 103, 101] [])  -- content-language
  | 28 => some (HeaderField.mk [99, 111, 110, 116, 101, 110, 116, 45, 108, 101, 110, 103, 116, 104] [])  -- content-length
  | 29 => some (HeaderField.mk [99, 111, 110, 116, 101, 110, 116, 45, 108, 111, 99, 97, 116, 105, 111, 110] [])  -- content-location
  | 30 => some (HeaderField.mk [99, 111, 110, 116, 101, 110, 116, 45, 114, 97, 110, 103, 101] [])  -- content-range
  | 31 => some (HeaderField.mk [99, 111, 110, 116, 101, 110, 116, 45, 116, 121, 112, 101] [])  -- content-type
  | 32 => some (HeaderField.mk [99, 111, 111, 107, 105, 101] [])  -- cookie
  | 33 => some (HeaderField.mk [100, 97, 116, 101] [])  -- date
  | 34 => some (HeaderField.mk [101, 116, 97, 103] [])  -- etag
  | 35 => some (HeaderField.mk [101, 120, 112, 101, 99, 116] [])  -- expect
  | 36 => some (HeaderField.mk [101, 120, 112, 105, 114, 101, 115] [])  -- expires
  | 37 => some (HeaderField.mk [102, 114, 111, 109] [])  -- from
  | 38 => some (HeaderField.mk [104, 111, 115, 116] [])  -- host
  | 39 => some (HeaderField.mk [105, 102, 45, 109, 97, 116, 99, 104] [])  -- if-match
  | 40 => some (HeaderField.mk [105, 102, 45, 109, 111, 100, 105, 102, 105, 101, 100, 45, 115, 105, 110, 99, 101] [])  -- if-modified-since
  | 41 => some (HeaderField.mk [105, 102, 45, 110, 111, 110, 101, 45, 109, 97, 116, 99, 104] [])  -- if-none-match
  | 42 => some (HeaderField.mk [105, 102, 45, 114, 97, 110, 103, 101] [])  -- if-range
  | 43 => some (HeaderField.mk [105, 102, 45, 117, 110, 109, 111, 100, 105, 102, 105, 101, 100, 45, 115, 105, 110, 99, 101] [])  -- if-unmodified-since
  | 44 => some (HeaderField.mk [108, 97, 115, 116, 45, 109, 111, 100, 105, 102, 105, 101, 100] [])  -- last-modified
  | 45 => some (HeaderField.mk [108, 105, 110, 107] [])  -- link
  | 46 => some (HeaderField.mk [108, 111, 99, 97, 116, 105, 111, 110] [])  -- location
  | 47 => some (HeaderField.mk [109, 97, 120, 45, 102, 111, 114, 119, 97, 114, 100, 115] [])  -- max-forwards
  | 48 => some (HeaderField.mk [112, 114, 111, 120, 121, 45, 97, 117, 116, 104, 101, 110, 116, 105, 99, 97, 116, 101] [])  -- proxy-authenticate
  | 49 => some (HeaderField.mk [112, 114, 111, 120, 121, 45, 97, 117, 116, 104, 111, 114, 105, 122, 97, 116, 105, 111, 110] [])  -- proxy-authorization
  | 50 => some (HeaderField.mk [114, 97, 110, 103, 101] [])  -- range
  | 51 => some (HeaderField.mk [114, 101, 102, 101, 114, 101, 114] [])  -- referer
  | 52 => some (HeaderField.mk [114, 101, 102, 114, 101, 115, 104] [])  -- refresh
  | 53 => some (HeaderField.mk [114, 101, 116, 114, 121, 45, 97, 102, 116, 101, 114] [])  -- retry-after
  | 54 => some (HeaderField.mk [115, 101, 114, 118, 101, 114] [])  -- server
  | 55 => some (HeaderField.mk [115, 101, 116, 45, 99, 111, 111, 107, 105, 101] [])  -- set-cookie
  | 56 => some (HeaderField.mk [115, 116, 114, 105, 99, 116, 45, 116, 114, 97, 110, 115, 112, 111, 114, 116, 45, 115, 101, 99, 117, 114, 105, 116, 121] [])  -- strict-transport-security
  | 57 => some (HeaderField.mk [116, 114, 97, 110, 115, 102, 101, 114, 45, 101, 110, 99, 111, 100, 105, 110, 103] [])  -- transfer-encoding
  | 58 => some (HeaderField.mk [117, 115, 101, 114, 45, 97, 103, 101, 110, 116] [])  -- user-agent
  | 59 => some (HeaderField.mk [118, 97, 114, 121] [])  -- vary
  | 60 => some (HeaderField.mk [118, 105, 97] [])  -- via
  | 61 => some (HeaderField.mk [119, 119, 119, 45, 97, 117, 116, 104, 101, 110, 116, 105, 99, 97, 116, 101] [])  -- www-authenticate
  | _ => none

/-- `Table::get` (src/table.rs, lines 41-55): static indices resolve via
`StaticEntry::from_index`; otherwise the source computes
`index - 62` in `u16` (wrapping in the release profile, modelled by
`(index + 65536 - 62) % 65536` for `index < 65536`) and indexes the
dynamic entries, failing with `InvalidInput` (`none`) when out of range. -/
def tableGet (t : DynamicTable) (index : Nat) : Option HeaderField :=
  match staticEntryFromIndex index with
  | some e => some e
  | none =>
    match t.entries.get? ((index + 65536 - 62) % 65536) with
    | none => none
    | some e => some e

/-- `Table::len` (src/table.rs, lines 57-60): 61 static entries plus the
dynamic entries. -/
def tableLen (t : DynamicTable) : Nat :=
  61 + t.entries.length

/-- `Table::validate_index` (src/table.rs, lines 62-73): the index must
not exceed `Table::len`; on failure the table is untouched. -/
def validateIndex (t : DynamicTable) (index : Nat) : Bool :=
  index ≤ tableLen t

/-- `staticEntryFromIndex` agrees with the RFC 7541 Appendix A table
embedded from src/lib.rs, for every index in 1..=61. -/
theorem staticEntryFromIndex_rfc :
    ∀ i < 62, 1 ≤ i → staticEntryFromIndex i = STATIC_TABLE.get? (i - 1) := by
  decide

/-- Indices at or above 62 never resolve statically. -/
theorem staticEntryFromIndex_ge62 (k : Nat) : staticEntryFromIndex (k + 62) = none := rfl

/-- C6. `Table::get` resolves indices 1..=61 to the RFC 7541 static
entry, indices 62..=(61+len) to the dynamic entry at position
`index - 62`, and fails (without reaching any entry) for index 0 or
indices beyond the table, for every table whose dynamic part satisfies
the reachable-state bound of at most 2047 entries (each entry occupies
at least 32 of the at most 65535 counted bytes). -/
theorem tableGet_index_resolution (t : DynamicTable) (index : Nat)
    (hidx : index < 65536) (hlen : t.entries.length ≤ 2047) :
    (1 ≤ index → index ≤ 61 →
      tableGet t index = STATIC_TABLE.get? (index - 1) ∧
      (STATIC_TABLE.get? (index - 1)).isSome) ∧
    (∀ e, 62 ≤ index → t.entries.get? (index - 62) = some e →
      tableGet t index = some e) ∧
    ((index = 0 ∨ 61 + t.entries.length < index) → tableGet t index = none) := by
  have hstl : STATIC_TABLE.length = 61 := by decide
  refine ⟨?_, ?_, ?_⟩
  · intro h1 h61
    have hs := staticEntryFromIndex_rfc index (by omega) h1
    have hlt : index - 1 < STATIC_TABLE.length := by omega
    obtain ⟨e, he⟩ : ∃ e, STATIC_TABLE.get? (index - 1) = some e :=
      ⟨_, List.get?_eq_get hlt⟩
    rw [tableGet, hs, he]
    simp [he]
  · intro e h62 hget
    have hk : index = (index - 62) + 62 := by omega
    have hmod : (index + 65536 - 62) % 65536 = index - 62 := by omega
    rw [tableGet, hk, staticEntryFromIndex_ge62, ← hk, hmod, hget]
  · intro hcase
    rcases hcase with h0 | hbig
    · subst h0
      have : staticEntryFromIndex 0 = none := rfl
      rw [tableGet, this]
      have hdyn : t.entries.get? ((0 + 65536 - 62) % 65536) = none :=
        List.get?_eq_none.mpr (by omega)
      rw [hdyn]
    · have h62 : 62 ≤ index := by omega
      have hk : index = (index - 62) + 62 := by omega
      have hmod : (index + 65536 - 62) % 65536 = index - 62 := by omega
      have hnone : t.entries.get? (index - 62) = none :=
        List.get?_eq_none.mpr (by omega)
      rw [tableGet, hk, staticEntryFromIndex_ge62, ← hk, hmod, hnone]

/-- Witness for C6 on a table with one dynamic entry: index 2 is
`:method GET`, index 62 is the dynamic entry, indices 0 and 63 fail. -/
theorem tableGet_index_resolution_witness :
    tableGet { entries := [HeaderField.mk [97] [98]], size := 33,
               sizeSoftLimit := 100, sizeHardLimit := 100 } 2 =
      STATIC_TABLE.get? 1 ∧
    tableGet { entries := [HeaderField.mk [97] [98]], size := 33,
               sizeSoftLimit := 100, sizeHardLimit := 100 } 62 =
      some (HeaderField.mk [97] [98]) ∧
    tableGet { entries := [HeaderField.mk [97] [98]], size := 33,
               sizeSoftLimit := 100, sizeHardLimit := 100 } 0 = none ∧
    tableGet { entries := [HeaderField.mk [97] [98]], size := 33,
               sizeSoftLimit := 100, sizeHardLimit := 100 } 63 = none :=
  ⟨((tableGet_index_resolution _ 2 (by decide) (by decide)).1 (by decide) (by decide)).1,
   (tableGet_index_resolution _ 62 (by decide) (by decide)).2.1 _ (by decide) (by decide),
   (tableGet_index_resolution _ 0 (by decide) (by decide)).2.2 (Or.inl rfl),
   (tableGet_index_resolution _ 63 (by decide) (by decide)).2.2 (Or.inr (by decide))⟩

/-! ## Decoder block entry (src/decoder.rs, src/signal.rs) -/

/-- The continuation loop consumes at least one octet on success. -/
theorem decodeCont_length_lt :
    ∀ (input : List Nat) (value offset : Nat) (r : Nat × List Nat),
      decodeCont input value offset = some r → r.2.length < input.length := by
  intro input
  induction input with
  | nil => intro value offset r h; simp [decodeCont] at h
  | cons octet rest ih =>
    intro value offset r h
    rw [decodeCont] at h
    by_cases hc : value + ((octet &&& 127) <<< (offset % 16)) % 65536 ≤ 65535
    · rw [if_pos hc] at h
      by_cases hbit : octet &&& 128 = 128
      · rw [if_pos hbit] at h
        have := ih _ _ _ h
        simp only [List.length_cons]
        omega
      · rw [if_neg hbit] at h
        cases h
        simp
    · rw [if_neg hc] at h
      cases h

/-- `decode_u16` consumes at least one octet on success. -/
theorem decode_u16_length_lt :
    ∀ (input : List Nat) (n : Nat) (r : Nat × Nat × List Nat),
      decode_u16 input n = some r → r.2.2.length < input.length := by
  intro input n r h
  match input with
  | [] => simp [decode_u16] at h
  | first :: rest =>
    rw [decode_u16] at h
    by_cases hc : first &&& (2 ^ n - 1) = 2 ^ n - 1
    · rw [if_pos hc] at h
      cases hcont : decodeCont rest (first &&& (2 ^ n - 1)) 0 with
      | none => rw [hcont] at h; cases h
      | some r2 =>
        rw [hcont] at h
        have hlt := decodeCont_length_lt rest _ _ r2 hcont
        obtain ⟨v2, rest2⟩ := r2
        cases h
        simp only [List.length_cons]
        simp only at hlt
        omega
    · rw [if_neg hc] at h
      cases h
      simp

/-- `Decoder::enter_header_block` (src/decoder.rs, lines 50-66) together
with `DynamicTableSizeUpdate::decode` (src/signal.rs, lines 14-17): while
the peeked octet has bit 5 set (`octet & 0b0010_0000 != 0`), decode a
5-bit-prefix integer and apply it as the new soft limit; a peek at the
end of input or a failed decode or setter propagates `Err`.  `err`/`ok`
carry the decoder's table and the input that remains unconsumed (for
`err`, the input at the failing step). -/
def enterHeaderBlockLoop (t : DynamicTable) (input : List Nat) :
    OpResult (DynamicTable × List Nat) :=
  match input with
  | [] => .err (t, [])
  | b :: rest =>
    if b &&& 32 ≠ 0 then
      match h : decode_u16 (b :: rest) 5 with
      | none => .err (t, b :: rest)
      | some (_, maxSize, rest2) =>
        match t.setSizeSoftLimit maxSize with
        | .crash => .crash
        | .err t2 => .err (t2, b :: rest)
        | .ok t2 => enterHeaderBlockLoop t2 rest2
    else
      .ok (t, b :: rest)
termination_by input.length
decreasing_by
  have hlen := decode_u16_length_lt _ 5 _ h
  simpa using hlen

/-- Unfolding of `enterHeaderBlockLoop` at the end of the input: the peek
fails and the whole call returns `Err` with the table as mutated so far. -/
theorem enterLoop_nil (t : DynamicTable) :
    enterHeaderBlockLoop t [] = .err (t, []) := by
  rw [enterHeaderBlockLoop]

/-- Unfolding of `enterHeaderBlockLoop` on an octet with bit 5 set whose
5-bit-prefix decode and soft-limit update both succeed. -/
theorem enterLoop_step (t : DynamicTable) (b : Nat) (rest : List Nat)
    (hb : b &&& 32 ≠ 0) (p maxSize : Nat) (rest2 : List Nat)
    (hdec : decode_u16 (b :: rest) 5 = some (p, maxSize, rest2))
    (t2 : DynamicTable) (hset : t.setSizeSoftLimit maxSize = .ok t2) :
    enterHeaderBlockLoop t (b :: rest) = enterHeaderBlockLoop t2 rest2 := by
  rw [enterHeaderBlockLoop]
  simp only [if_pos hb]
  split
  · rename_i heq
    rw [hdec] at heq
    cases heq
  · rename_i p2 maxSize2 rest3 heq
    rw [hdec] at heq
    cases heq
    rw [hset]

/-- Unfolding of `enterHeaderBlockLoop` on an octet with bit 5 clear: the
loop stops, leaving the octet unconsumed. -/
theorem enterLoop_stop (t : DynamicTable) (b : Nat) (rest : List Nat)
    (hb : b &&& 32 = 0) :
    enterHeaderBlockLoop t (b :: rest) = .ok (t, b :: rest) := by
  rw [enterHeaderBlockLoop]
  simp [hb]

/-- `Decoder::enter_header_block` applied to a block. -/
def enterHeaderBlock (t : DynamicTable) (block : List Nat) :
    OpResult (DynamicTable × List Nat) :=
  enterHeaderBlockLoop t block

/-- C5. `enter_header_block` mistakes the indexed-field octet `0xBE`
(`10111110`, the common "indexed, index 62" representation, pattern
`1xxxxxxx`, not `001xxxxx`) for a size update because it only tests bit
5: on a fresh `Decoder(4096)` the octet is consumed, the soft limit is
set to `0xBE & 31 = 30`, and the block entry then fails at the end of
input instead of leaving the octet for `decode_field`. -/
theorem enterHeaderBlock_consumes_indexed_octet :
    enterHeaderBlock (DynamicTable.new 4096) [190] =
      .err ({ entries := [], size := 0, sizeSoftLimit := 30,
              sizeHardLimit := 4096 }, []) ∧
    190 >>> 7 = 1 ∧ 190 >>> 5 ≠ 1 ∧ 190 &&& 31 = 30 := by
  refine ⟨?_, by decide, by decide, by decide⟩
  rw [enterHeaderBlock,
    enterLoop_step (DynamicTable.new 4096) 190 [] (by decide) 5 30 []
      (by decide)
      { entries := [], size := 0, sizeSoftLimit := 30, sizeHardLimit := 4096 }
      (by simp [DynamicTable.setSizeSoftLimit, DynamicTable.new, evictLoop]),
    enterLoop_nil]

/-- C7. `enter_header_block` fails on the empty header block: the
size-update loop peeks at the first octet before testing for the end of
input, so a block with zero representations is rejected. -/
theorem enterHeaderBlock_rejects_empty_block :
    enterHeaderBlock (DynamicTable.new 4096) [] =
      .err (DynamicTable.new 4096, []) := by
  rw [enterHeaderBlock, enterLoop_nil]

/-! ## Encoder pending size updates (src/encoder.rs) -/

/-- `Encoder` state (src/encoder.rs, lines 8-12): the indexing table and
the queue of pending dynamic-table-size updates. -/
structure EncoderSt where
  table : DynamicTable
  updates : List Nat
deriving DecidableEq

/-- `Encoder::new` (src/encoder.rs, lines 15-20). -/
def EncoderSt.new (maxSize : Nat) : EncoderSt :=
  { table := DynamicTable.new maxSize, updates := [] }

/-- `Encoder::set_dynamic_table_size_soft_limit` (src/encoder.rs, lines
41-48): remembers the old soft limit, delegates to the table, and
enqueues the old value when the soft limit actually changed. -/
def encoderSetSoft (e : EncoderSt) (m : Nat) : OpResult EncoderSt :=
  match e.table.setSizeSoftLimit m with
  | .crash => .crash
  | .err t2 => .err { e with table := t2 }
  | .ok t2 =>
    .ok { table := t2,
          updates := if e.table.sizeSoftLimit ≠ t2.sizeSoftLimit
                     then e.updates ++ [e.table.sizeSoftLimit] else e.updates }

/-- `Encoder::set_dynamic_table_size_hard_limit` (src/encoder.rs, lines
28-34): delegates to the table (which may cascade onto the soft limit)
and enqueues the old soft limit when the soft limit changed. -/
def encoderSetHard (e : EncoderSt) (m : Nat) : Option EncoderSt :=
  match e.table.setSizeHardLimit m with
  | none => none
  | some t2 =>
    some { table := t2,
           updates := if e.table.sizeSoftLimit ≠ t2.sizeSoftLimit
                      then e.updates ++ [e.table.sizeSoftLimit] else e.updates }

/-- `DynamicTableSizeUpdate::encode` (src/signal.rs, lines 11-13):
a 5-bit-prefix integer with prepended bits `0b001`. -/
def sizeUpdateEncode (v : Nat) : List Nat := encode_u16 1 5 v

/-- `Encoder::enter_header_block` (src/encoder.rs, lines 51-60): drains
the queued updates in order, emitting one size-update signal per value,
and returns the emitted bytes together with the state for the new block.
Any field bytes of the block are appended after these bytes. -/
def encoderEnterHeaderBlock (e : EncoderSt) : List Nat × EncoderSt :=
  ((e.updates.map sizeUpdateEncode).flatten, { e with updates := [] })

/-- A between-blocks setter call on the encoder, quantified over in C8. -/
inductive EncOp where
  | setSoft (m : Nat)
  | setHard (m : Nat)
deriving DecidableEq

/-- Apply one setter call; an `Err` from the soft-limit setter is
reported to the caller and leaves the encoder unchanged, a crash aborts. -/
def applyEncOp (e : EncoderSt) : EncOp → Option EncoderSt
  | .setSoft m =>
    match encoderSetSoft e m with
    | .crash => none
    | .err e2 => some e2
    | .ok e2 => some e2
  | .setHard m => encoderSetHard e m

/-- Apply a sequence of setter calls from left to right. -/
def applyEncOps (e : EncoderSt) : List EncOp → Option EncoderSt
  | [] => some e
  | op :: ops =>
    match applyEncOp e op with
    | none => none
    | some e2 => applyEncOps e2 ops

/-- Specification-side definition (from the spec's words, for C8): the
old soft-limit values enqueued by a sequence of setter calls, in call
order — a successful `setSoft m` (allowed when `m` does not exceed the
hard limit) records the previous soft limit when it changes it, and a
`setHard m` records the previous soft limit exactly when it drags the
soft limit down. -/
def softLimitTrace : List EncOp → Nat → Nat → List Nat
  | [], _, _ => []
  | .setSoft m :: ops, soft, hard =>
    if m ≤ hard then
      if soft = m then softLimitTrace ops m hard
      else soft :: softLimitTrace ops m hard
    else softLimitTrace ops soft hard
  | .setHard m :: ops, soft, hard =>
    if m < soft then soft :: softLimitTrace ops m m
    else softLimitTrace ops soft m

/-- A successful `set_size_soft_limit` sets the soft limit to the request,
keeps the hard limit, and presupposes the request was within it. -/
theorem setSizeSoftLimit_ok_limits (t : DynamicTable) (m : Nat) (t2 : DynamicTable)
    (h : t.setSizeSoftLimit m = .ok t2) :
    t2.sizeSoftLimit = m ∧ t2.sizeHardLimit = t.sizeHardLimit ∧ m ≤ t.sizeHardLimit := by
  rw [DynamicTable.setSizeSoftLimit] at h
  by_cases hc : m ≤ t.sizeHardLimit
  · rw [if_pos hc] at h
    cases hev : evictLoop (m - 0) t.entries t.size with
    | none => rw [hev] at h; cases h
    | some r =>
      obtain ⟨l2, s2⟩ := r
      rw [hev] at h
      cases h
      exact ⟨rfl, rfl, hc⟩
  · rw [if_neg hc] at h
    cases h

/-- A failed `set_size_soft_limit` leaves the table unchanged and means
the request exceeded the hard limit. -/
theorem setSizeSoftLimit_err (t : DynamicTable) (m : Nat) (t2 : DynamicTable)
    (h : t.setSizeSoftLimit m = .err t2) :
    t2 = t ∧ t.sizeHardLimit < m := by
  rw [DynamicTable.setSizeSoftLimit] at h
  by_cases hc : m ≤ t.sizeHardLimit
  · rw [if_pos hc] at h
    cases hev : evictLoop (m - 0) t.entries t.size with
    | none => rw [hev] at h; cases h
    | some r => obtain ⟨l2, s2⟩ := r; rw [hev] at h; cases h
  · rw [if_neg hc] at h
    cases h
    exact ⟨rfl, by omega⟩

/-- A successful `set_size_hard_limit` sets the hard limit and lowers the
soft limit exactly when the new hard limit undercuts it. -/
theorem setSizeHardLimit_some_limits (t : DynamicTable) (m : Nat) (t2 : DynamicTable)
    (h : t.setSizeHardLimit m = some t2) :
    t2.sizeHardLimit = m ∧
    t2.sizeSoftLimit = (if m < t.sizeSoftLimit then m else t.sizeSoftLimit) := by
  rw [DynamicTable.setSizeHardLimit] at h
  by_cases hc : m < t.sizeSoftLimit
  · rw [if_pos hc] at h
    cases hset : DynamicTable.setSizeSoftLimit { t with sizeHardLimit := m } m with
    | crash => rw [hset] at h; cases h
    | err t3 => rw [hset] at h; cases h
    | ok t3 =>
      rw [hset] at h
      cases h
      have := setSizeSoftLimit_ok_limits _ _ _ hset
      simp only at this
      rw [if_pos hc]
      exact ⟨this.2.1, this.1⟩
  · rw [if_neg hc] at h
    cases h
    rw [if_neg hc]
    exact ⟨rfl, rfl⟩

/-- The queue built by a sequence of setter calls extends the existing
queue with exactly the old-soft-limit trace of the calls. -/
theorem applyEncOps_updates :
    ∀ (ops : List EncOp) (e e2 : EncoderSt), applyEncOps e ops = some e2 →
      e2.updates = e.updates ++
        softLimitTrace ops e.table.sizeSoftLimit e.table.sizeHardLimit := by
  intro ops
  induction ops with
  | nil =>
    intro e e2 h
    rw [applyEncOps] at h
    cases h
    simp [softLimitTrace]
  | cons op ops ih =>
    intro e e2 h
    rw [applyEncOps] at h
    cases hop : applyEncOp e op with
    | none => rw [hop] at h; cases h
    | some e1 =>
      rw [hop] at h
      have hrest := ih e1 e2 h
      cases op with
      | setSoft m =>
        rw [applyEncOp] at hop
        cases hset : encoderSetSoft e m with
        | crash => rw [hset] at hop; cases hop
        | err e1b =>
          rw [hset] at hop
          cases hop
          rw [encoderSetSoft] at hset
          cases hsoft : DynamicTable.setSizeSoftLimit e.table m with
          | crash => rw [hsoft] at hset; cases hset
          | ok t2 => rw [hsoft] at hset; cases hset
          | err t2 =>
            rw [hsoft] at hset
            cases hset
            obtain ⟨ht2, hgt⟩ := setSizeSoftLimit_err _ _ _ hsoft
            subst ht2
            rw [hrest, softLimitTrace, if_neg (by omega)]
        | ok e1b =>
          rw [hset] at hop
          cases hop
          rw [encoderSetSoft] at hset
          cases hsoft : DynamicTable.setSizeSoftLimit e.table m with
          | crash => rw [hsoft] at hset; cases hset
          | err t2 => rw [hsoft] at hset; cases hset
          | ok t2 =>
            rw [hsoft] at hset
            cases hset
            obtain ⟨hs, hh, hle⟩ := setSizeSoftLimit_ok_limits _ _ _ hsoft
            rw [hrest]
            dsimp only
            rw [softLimitTrace, if_pos hle, hs, hh]
            by_cases heq : e.table.sizeSoftLimit = m
            · rw [if_pos heq, if_neg (by omega : ¬ e.table.sizeSoftLimit ≠ m)]
            · rw [if_neg heq, if_pos (by omega : e.table.sizeSoftLimit ≠ m)]
              simp
      | setHard m =>
        rw [applyEncOp] at hop
        rw [encoderSetHard] at hop
        cases hhard : DynamicTable.setSizeHardLimit e.table m with
        | none => rw [hhard] at hop; cases hop
        | some t2 =>
          rw [hhard] at hop
          cases hop
          obtain ⟨ht2h, ht2s⟩ := setSizeHardLimit_some_limits _ _ _ hhard
          rw [hrest]
          dsimp only
          by_cases hc : m < e.table.sizeSoftLimit
          · rw [if_pos hc] at ht2s
            rw [softLimitTrace, if_pos hc, ht2s, ht2h,
              if_pos (by omega : e.table.sizeSoftLimit ≠ m)]
            simp
          · rw [if_neg hc] at ht2s
            rw [softLimitTrace, if_neg hc, ht2s, ht2h,
              if_neg (by omega : ¬ e.table.sizeSoftLimit ≠ e.table.sizeSoftLimit)]

/-- C8. Starting from an encoder with an empty pending queue, a sequence
of soft/hard-limit setter calls enqueues the pre-change soft-limit value
of every call that changes the soft limit, in call order, and the next
`enter_header_block` emits exactly one size-update signal per queued
value, in that order, before any field bytes (which are appended after
the returned prefix), leaving the queue empty. -/
theorem encoder_pending_updates_drained_in_order
    (ops : List EncOp) (e e2 : EncoderSt)
    (h0 : e.updates = []) (h : applyEncOps e ops = some e2) :
    (encoderEnterHeaderBlock e2).1 =
      ((softLimitTrace ops e.table.sizeSoftLimit e.table.sizeHardLimit).map
        sizeUpdateEncode).flatten ∧
    (encoderEnterHeaderBlock e2).2.updates = [] := by
  have hupd := applyEncOps_updates ops e e2 h
  rw [h0] at hupd
  constructor
  · rw [encoderEnterHeaderBlock]
    dsimp only
    rw [hupd]
    simp
  · rfl

/-- Witness for C8: `Encoder(4096)`, `set_soft(100)` then `set_hard(50)`
queue `[4096, 100]`, and the next block entry emits the two signals in
that order. -/
theorem encoder_pending_updates_witness :
    (encoderEnterHeaderBlock
        { table := { entries := [], size := 0, sizeSoftLimit := 50,
                     sizeHardLimit := 50 },
          updates := [4096, 100] }).1 =
      ((softLimitTrace [EncOp.setSoft 100, EncOp.setHard 50]
          (EncoderSt.new 4096).table.sizeSoftLimit
          (EncoderSt.new 4096).table.sizeHardLimit).map sizeUpdateEncode).flatten ∧
    (encoderEnterHeaderBlock
        { table := { entries := [], size := 0, sizeSoftLimit := 50,
                     sizeHardLimit := 50 },
          updates := [4096, 100] }).2.updates = [] :=
  encoder_pending_updates_drained_in_order [EncOp.setSoft 100, EncOp.setHard 50]
    (EncoderSt.new 4096)
    { table := { entries := [], size := 0, sizeSoftLimit := 50,
                 sizeHardLimit := 50 },
      updates := [4096, 100] }
    rfl
    (by simp [applyEncOps, applyEncOp, encoderSetSoft, encoderSetHard,
      EncoderSt.new, DynamicTable.new, DynamicTable.setSizeSoftLimit,
      DynamicTable.setSizeHardLimit, evictLoop])

/-! ## Decoder hard-limit setter (src/decoder.rs) and the block encoder
(src/encoder.rs, src/field.rs) -/

/-- `Decoder::set_dynamic_table_size_hard_limit` (src/decoder.rs, lines
36-47): asserts `size_soft_limit <= max_size` before touching anything,
then delegates to `DynamicTable::set_size_hard_limit`. -/
def decoderSetHardLimit (t : DynamicTable) (m : Nat) : OpResult DynamicTable :=
  if t.sizeSoftLimit ≤ m then
    match t.setSizeHardLimit m with
    | none => .crash
    | some t2 => .ok t2
  else
    .err t

/-- C9. The decoder's hard-limit setter fails exactly when the request is
below the current soft limit, leaving the table untouched; on success it
sets only the hard limit, keeping entries, size, and soft limit. -/
theorem decoderSetHardLimit_spec (t : DynamicTable) (m : Nat) :
    (m < t.sizeSoftLimit → decoderSetHardLimit t m = .err t) ∧
    (t.sizeSoftLimit ≤ m →
      decoderSetHardLimit t m = .ok { t with sizeHardLimit := m }) := by
  constructor
  · intro h
    rw [decoderSetHardLimit, if_neg (by omega)]
  · intro h
    rw [decoderSetHardLimit, if_pos h, DynamicTable.setSizeHardLimit,
      if_neg (by omega)]

/-- Witness for C9 on a table with one entry, soft limit 100, hard limit
200: lowering the hard limit to 50 fails and changes nothing; raising it
to 150 succeeds and changes only the hard limit. -/
theorem decoderSetHardLimit_spec_witness :
    decoderSetHardLimit { entries := [HeaderField.mk [97] [98]], size := 33,
                          sizeSoftLimit := 100, sizeHardLimit := 200 } 50 =
      .err { entries := [HeaderField.mk [97] [98]], size := 33,
             sizeSoftLimit := 100, sizeHardLimit := 200 } ∧
    decoderSetHardLimit { entries := [HeaderField.mk [97] [98]], size := 33,
                          sizeSoftLimit := 100, sizeHardLimit := 200 } 150 =
      .ok { entries := [HeaderField.mk [97] [98]], size := 33,
            sizeSoftLimit := 100, sizeHardLimit := 150 } :=
  ⟨(decoderSetHardLimit_spec _ 50).1 (by decide),
   (decoderSetHardLimit_spec _ 150).2 (by decide)⟩

/-- A field name in an encoder-supplied representation: a table index or
an inline (raw) literal name. -/
inductive EncFieldName where
  | index (i : Nat)
  | name (octets : List Nat)
deriving DecidableEq

/-- `LiteralFieldForm` (src/field.rs, lines 71-75). -/
inductive EncForm where
  | withIndexing
  | withoutIndexing
  | neverIndexed
deriving DecidableEq

/-- A raw header-field representation handed to
`HeaderBlockEncoder::encode_field`.  String literals are modelled in
their raw (non-Huffman) encoding, the only part the claims exercise. -/
inductive EncRawField where
  | indexed (i : Nat)
  | literal (name : EncFieldName) (value : List Nat) (form : EncForm)
deriving DecidableEq

/-- `HpackString::encode` for a raw string (src/literal.rs, lines
102-112): a 7-bit-prefix length with prepended Huffman flag 0, then the
payload octets. -/
def strEncode (octets : List Nat) : List Nat :=
  encode_u16 0 7 octets.length ++ octets

/-- `LiteralHeaderField::encode_name` (src/field.rs, lines 211-237):
the six prefix patterns for the three literal forms with an indexed or
inline name. -/
def encodeFieldName : EncForm → EncFieldName → List Nat
  | .withIndexing, .index i => encode_u16 1 6 i
  | .withIndexing, .name n => 64 :: strEncode n
  | .withoutIndexing, .index i => encode_u16 0 4 i
  | .withoutIndexing, .name n => 0 :: strEncode n
  | .neverIndexed, .index i => encode_u16 1 4 i
  | .neverIndexed, .name n => 16 :: strEncode n

/-- The body of `encode_field` after index validation (src/encoder.rs,
lines 84-97): with incremental indexing the name is resolved (via the
table for an index, or the inline octets), the entry is pushed into the
dynamic table, and only then are the representation's bytes emitted;
other forms just emit bytes. -/
def encodeLiteralBody (t : DynamicTable) (nm : EncFieldName) (value : List Nat)
    (form : EncForm) : OpResult (DynamicTable × List Nat) :=
  match form with
  | .withIndexing =>
    match (match nm with
           | .index i => Option.map HeaderField.name (tableGet t i)
           | .name n => some n) with
    | none => .err (t, [])
    | some nameBytes =>
      match t.push nameBytes value with
      | none => .crash
      | some (_, t2) => .ok (t2, encodeFieldName form nm ++ strEncode value)
  | .withoutIndexing => .ok (t, encodeFieldName form nm ++ strEncode value)
  | .neverIndexed => .ok (t, encodeFieldName form nm ++ strEncode value)

/-- `HeaderBlockEncoder::encode_field` (src/encoder.rs, lines 71-99):
any referenced index is validated first (`Table::validate_index`); a
validation failure returns `Err` before the dynamic table is touched or
any byte is written (the second component of the result is the byte
sequence appended to the block). -/
def encodeField (t : DynamicTable) (f : EncRawField) :
    OpResult (DynamicTable × List Nat) :=
  match f with
  | .indexed i =>
    if validateIndex t i then .ok (t, encode_u16 1 7 i)
    else .err (t, [])
  | .literal nm value form =>
    match nm with
    | .index i =>
      if validateIndex t i then encodeLiteralBody t nm value form
      else .err (t, [])
    | .name _ => encodeLiteralBody t nm value form

/-- The table index referenced by a representation, if any. -/
def fieldRefIndex : EncRawField → Option Nat
  | .indexed i => some i
  | .literal (.index i) _ _ => some i
  | .literal (.name _) _ _ => none

/-- C10. When a representation refers to an index beyond
`61 + |dynamic|`, `encode_field` fails, the dynamic table is returned
exactly as it was (same entries, size and limits), and no bytes are
emitted. -/
theorem encodeField_invalid_index_unchanged (t : DynamicTable)
    (f : EncRawField) (i : Nat) (href : fieldRefIndex f = some i)
    (hbad : 61 + t.entries.length < i) :
    encodeField t f = .err (t, []) := by
  have hv : validateIndex t i = false := by
    simp only [validateIndex, tableLen, decide_eq_false_iff_not]
    omega
  cases f with
  | indexed j =>
    rw [fieldRefIndex] at href
    cases href
    rw [encodeField]
    simp [hv]
  | literal nm value form =>
    cases nm with
    | index j =>
      rw [fieldRefIndex] at href
      cases href
      rw [encodeField]
      simp [hv]
    | name n =>
      rw [fieldRefIndex] at href
      cases href

/-- Witness for C10: on an empty table (max index 61), both an indexed
field with index 70 and an incremental-indexing literal whose name
refers to index 70 fail and leave the table as constructed. -/
theorem encodeField_invalid_index_unchanged_witness :
    encodeField (DynamicTable.new 100) (EncRawField.indexed 70) =
      .err (DynamicTable.new 100, []) ∧
    encodeField (DynamicTable.new 100)
        (EncRawField.literal (EncFieldName.index 70) [99] EncForm.withIndexing) =
      .err (DynamicTable.new 100, []) :=
  ⟨encodeField_invalid_index_unchanged _ _ 70 rfl (by decide),
   encodeField_invalid_index_unchanged _ _ 70 rfl (by decide)⟩
